import Mathlib

/-!
Verification of the foodgram shopping-cart download pipeline
(`RecipeViewSet.download_shopping_cart` in `backend/api/views.py` and the
identical `ShoppingCartViewSet.download` in `backend/foodgram/api/views.py`,
together with the `_generate_txt_response`, `_generate_pdf_response` and
`_generate_csv_response` helpers).

The embedding models:
  * the cart snapshot as a list of cart items, each holding the recipe id and
    the recipe's ingredient lines (name, measurement unit, amount);
  * the `recipe_ids` query-parameter handling, including CPython `int()`
    parsing of each comma-separated token: optional surrounding Python
    whitespace, one optional ASCII sign, then Unicode decimal digits
    (category Nd, per the Unicode 13.0 database of CPython 3.9/3.10) with
    single underscore separators;
  * the `defaultdict(int)` aggregation keyed by
    `(ingredient.name, ingredient.measurement_unit)`;
  * `sorted(ingredients.items())` as a stable insertion sort under Python's
    tuple/string comparison (strings compared by code points) — a stable
    sort is unique, so this coincides with CPython's Timsort output;
  * the three renderers as observable responses: the txt body string, the
    csv rows as written by `csv.writer.writerow`, and the pdf `drawString`
    calls as (page, y, text) triples.

PDF layout constants are the literal values of
`backend/foodgram/api/views.py` (the named constants of the sibling file
live in a `food/constants.py` module not present in the tree; both
implementations are otherwise character-identical).
-/

/-! ### Generic character-list helpers -/

/-- Code-point lexicographic strict comparison of character lists.
This is CPython's `<` on strings, restricted to the characters present. -/
def charListLt : List Char → List Char → Bool
  | [], [] => false
  | [], _ :: _ => true
  | _ :: _, [] => false
  | c1 :: r1, c2 :: r2 =>
    if c1.toNat < c2.toNat then true
    else if c2.toNat < c1.toNat then false
    else charListLt r1 r2

/-- CPython string `<`: code-point lexicographic order. -/
def strLt (s1 s2 : String) : Bool := charListLt s1.data s2.data

/-- Split a character list at every occurrence of the separator character.
Models CPython's `str.split(sep)` for a one-character separator: it always
returns one more piece than there are separators, so `"a,,".split(",")`
gives three pieces, two of them empty. -/
def splitOnChar (sep : Char) : List Char → List (List Char)
  | [] => [[]]
  | c :: rest =>
    if c = sep then [] :: splitOnChar sep rest
    else
      match splitOnChar sep rest with
      | l :: ls => (c :: l) :: ls
      | [] => [[c]]

/-- `str.split(',')` of CPython, producing strings. -/
def pySplitComma (s : String) : List String :=
  (splitOnChar ',' s.data).map String.mk

/-- ASCII lowering of one character, as CPython's `str.lower` acts on the
ASCII letters appearing in the format tokens. -/
def asciiLower (c : Char) : Char :=
  if 'A' ≤ c ∧ c ≤ 'Z' then Char.ofNat (c.toNat + 32) else c

/-- `str.lower()` of CPython, restricted to ASCII case folding. -/
def pyLower (s : String) : String := String.mk (s.data.map asciiLower)

/-- Drop an expected literal prefix from a character list, failing when the
list does not start with it. -/
def dropPrefixChars : List Char → List Char → Option (List Char)
  | [], l => some l
  | _ :: _, [] => none
  | p :: ps, c :: cs => if c = p then dropPrefixChars ps cs else none

/-- Split a character list at the first occurrence of a (nonempty) pattern,
returning the parts strictly before and strictly after that occurrence. -/
def splitOnce (pat : List Char) : List Char → Option (List Char × List Char)
  | [] => none
  | c :: rest =>
    if pat.isPrefixOf (c :: rest) then some ([], (c :: rest).drop pat.length)
    else
      match splitOnce pat rest with
      | some (a, b) => some (c :: a, b)
      | none => none

/-- Whether a pattern occurs as a contiguous sublist. -/
def containsSub (pat : List Char) : List Char → Bool
  | [] => pat.isEmpty
  | c :: rest => pat.isPrefixOf (c :: rest) || containsSub pat rest

/-- Split a character list on newline characters.  The final (possibly
empty) piece after the last newline is kept, so a text ending in a newline
ends in an empty piece. -/
def linesOf : List Char → List (List Char)
  | [] => [[]]
  | c :: rest =>
    if c = '\n' then [] :: linesOf rest
    else
      match linesOf rest with
      | l :: ls => (c :: l) :: ls
      | [] => [[c]]

/-! ### Decimal digits (CPython `str` of a non-negative `int`) -/

/-- The character of one decimal digit (`d ≤ 9`). -/
def digitChar (d : Nat) : Char :=
  match d with
  | 0 => '0' | 1 => '1' | 2 => '2' | 3 => '3' | 4 => '4'
  | 5 => '5' | 6 => '6' | 7 => '7' | 8 => '8' | _ => '9'

/-- Fuel-driven digit expansion by repeated division; any fuel above the
number itself yields the digits, most significant first. -/
def decimalDigitsAux : Nat → Nat → List Char
  | 0, _ => []
  | fuel + 1, n =>
    if n < 10 then [digitChar n]
    else decimalDigitsAux fuel (n / 10) ++ [digitChar (n % 10)]

/-- The decimal digit characters of a natural number, most significant
first; models CPython's `str(n)` for `n ≥ 0`. -/
def decimalDigits (n : Nat) : List Char := decimalDigitsAux (n + 1) n

/-- `str(n)` of CPython for a non-negative integer `n`. -/
def natStr (n : Nat) : String := String.mk (decimalDigits n)

/-- Value of a list of decimal digit characters, most significant first. -/
def digitsVal (cs : List Char) : Nat :=
  cs.foldl (fun acc c => 10 * acc + (c.toNat - 48)) 0

/-! ### CPython `int()` parsing of a token -/

/-- Start codepoints of the decimal-digit (general category Nd) blocks of
the Unicode 13.0 database used by CPython 3.9/3.10 — each block is a run of
ten consecutive characters carrying the digit values 0–9 in order.  (Later
Unicode versions add a few more blocks: Tangsa in 14.0, Kawi and Nag
Mundari in 15.0.) -/
def ndRangeStarts : List Nat :=
  [0x30, 0x660, 0x6F0, 0x7C0, 0x966, 0x9E6, 0xA66, 0xAE6, 0xB66, 0xBE6,
   0xC66, 0xCE6, 0xD66, 0xDE6, 0xE50, 0xED0, 0xF20, 0x1040, 0x1090, 0x17E0,
   0x1810, 0x1946, 0x19D0, 0x1A80, 0x1A90, 0x1B50, 0x1BB0, 0x1C40, 0x1C50,
   0xA620, 0xA8D0, 0xA900, 0xA9D0, 0xA9F0, 0xAA50, 0xABF0, 0xFF10,
   0x104A0, 0x10D30, 0x11066, 0x110F0, 0x11136, 0x111D0, 0x112F0, 0x11450,
   0x114D0, 0x11650, 0x116C0, 0x11730, 0x118E0, 0x11950, 0x11C50, 0x11D50,
   0x11DA0, 0x16A60, 0x16B50, 0x1D7CE, 0x1D7D8, 0x1D7E2, 0x1D7EC, 0x1D7F6,
   0x1E140, 0x1E2F0, 0x1E950, 0x1FBF0]

/-- The decimal value of a Unicode decimal digit (`int()` accepts any Nd
character, e.g. `int('٣') == 3`), `none` for a non-digit. -/
def pyDigitVal? (c : Char) : Option Nat :=
  match ndRangeStarts.find? (fun s => decide (s ≤ c.toNat ∧ c.toNat < s + 10)) with
  | some s => some (c.toNat - s)
  | none => none

/-- Whether `int()` treats the character as a decimal digit. -/
def isPyDigit (c : Char) : Bool := (pyDigitVal? c).isSome

/-- The whitespace CPython's `int()` strips (`Py_UNICODE_ISSPACE`):
U+0009–U+000D, U+001C–U+001F, space, U+0085, U+00A0, U+1680,
U+2000–U+200A, U+2028, U+2029, U+202F, U+205F and U+3000. -/
def isPySpace (c : Char) : Bool :=
  decide ((0x09 ≤ c.toNat ∧ c.toNat ≤ 0x0D) ∨ (0x1C ≤ c.toNat ∧ c.toNat ≤ 0x1F)
    ∨ c.toNat = 0x20 ∨ c.toNat = 0x85 ∨ c.toNat = 0xA0 ∨ c.toNat = 0x1680
    ∨ (0x2000 ≤ c.toNat ∧ c.toNat ≤ 0x200A) ∨ c.toNat = 0x2028 ∨ c.toNat = 0x2029
    ∨ c.toNat = 0x202F ∨ c.toNat = 0x205F ∨ c.toNat = 0x3000)

/-- CPython digit-part grammar: `digit (["_"] digit)*` — at least one
Unicode decimal digit, single underscores only between digits. -/
def pyDigits : List Char → Bool
  | [] => false
  | [c] => isPyDigit c
  | c :: '_' :: rest => isPyDigit c && pyDigits rest
  | c :: rest => isPyDigit c && pyDigits rest

/-- Value of a CPython digit part (underscores are separators; each digit
contributes its Unicode decimal value). -/
def pyDigitsVal (cs : List Char) : Nat :=
  (cs.filter (fun c => c ≠ '_')).foldl (fun acc c => 10 * acc + (pyDigitVal? c).getD 0) 0

/-- CPython `int(token)`: strip whitespace on both sides, allow one
optional ASCII sign, then require a digit part; `none` models the
`ValueError` raised otherwise. -/
def pyParseInt (s : String) : Option Int :=
  let t := ((s.data.dropWhile isPySpace).reverse.dropWhile isPySpace).reverse
  match t with
  | '+' :: rest => if pyDigits rest then some (Int.ofNat (pyDigitsVal rest)) else none
  | '-' :: rest => if pyDigits rest then some (-(Int.ofNat (pyDigitsVal rest))) else none
  | rest => if pyDigits rest then some (Int.ofNat (pyDigitsVal rest)) else none

/-- `[int(id) for id in recipe_ids.split(',')]`: all tokens must parse;
the first `ValueError` aborts the whole comprehension. -/
def parseIdList : List String → Option (List Int)
  | [] => some []
  | t :: ts =>
    match pyParseInt t, parseIdList ts with
    | some v, some vs => some (v :: vs)
    | _, _ => none

/-! ### Data model -/

/-- One `RecipeIngredient` row as traversed by the aggregation loop:
`ri.ingredient.name`, `ri.ingredient.measurement_unit`, `ri.amount`. -/
structure IngredientLine where
  name : String
  measurement_unit : String
  amount : Nat
deriving DecidableEq

/-- One `ShoppingCart` row joined with its recipe: the recipe id used by
the `recipe_id__in` filter and the recipe's `recipe_ingredients`. -/
structure CartItem where
  recipe_id : Int
  recipe_ingredients : List IngredientLine
deriving DecidableEq

/-- The aggregation key `(ri.ingredient.name, ri.ingredient.measurement_unit)`. -/
def keyOf (l : IngredientLine) : String × String := (l.name, l.measurement_unit)

/-! ### The `defaultdict(int)` aggregation -/

/-- `ingredients[key] += amount` on an insertion-ordered association list,
the observable content of a CPython `defaultdict(int)`: a missing key is
created at the end with the added value. -/
def dictAdd (m : List ((String × String) × Nat)) (k : String × String) (v : Nat) :
    List ((String × String) × Nat) :=
  match m with
  | [] => [(k, v)]
  | (k', v') :: rest =>
    if k' = k then (k', v' + v) :: rest else (k', v') :: dictAdd rest k v

/-- Association-list lookup (`key in dict` / `dict[key]`). -/
def dictFind (m : List ((String × String) × Nat)) (k : String × String) : Option Nat :=
  match m with
  | [] => none
  | (k', v') :: rest => if k' = k then some v' else dictFind rest k

/-- The aggregation loop:
`for item in shopping_cart: for ri in item.recipe.recipe_ingredients.all():
ingredients[(ri.ingredient.name, ri.ingredient.measurement_unit)] += ri.amount`. -/
def aggregate (items : List CartItem) : List ((String × String) × Nat) :=
  items.foldl
    (fun m item =>
      item.recipe_ingredients.foldl (fun m ri => dictAdd m (keyOf ri) ri.amount) m)
    []

/-! ### `sorted(ingredients.items())` -/

/-- CPython tuple comparison `((name, unit), amount) <= ((name', unit'), amount')`:
lexicographic on name (code points), then unit, then amount. -/
def pyLeEntry (e1 e2 : (String × String) × Nat) : Bool :=
  if strLt e1.1.1 e2.1.1 then true
  else if strLt e2.1.1 e1.1.1 then false
  else if strLt e1.1.2 e2.1.2 then true
  else if strLt e2.1.2 e1.1.2 then false
  else e1.2 ≤ e2.2

/-- Stable insertion of an entry before the first strictly greater one. -/
def insortEntry (e : (String × String) × Nat) :
    List ((String × String) × Nat) → List ((String × String) × Nat)
  | [] => [e]
  | x :: xs => if pyLeEntry e x then e :: x :: xs else x :: insortEntry e xs

/-- `sorted(ingredients.items())`: a stable sort under CPython tuple
comparison.  Stable sorts agree on every input, so insertion sort has
exactly the output of CPython's Timsort. -/
def sortedItems : List ((String × String) × Nat) → List ((String × String) × Nat)
  | [] => []
  | e :: es => insortEntry e (sortedItems es)

/-! ### The three renderers -/

/-- The observable outcome of the download endpoint: a 400 JSON error body
or a file response (content type, attachment filename, observable body). -/
inductive Response where
  | badRequest (error : String)
  | txtFile (contentType filename text : String)
  | pdfFile (contentType filename : String) (draws : List (Nat × Int × String))
  | csvFile (contentType filename : String) (rows : List (List String))
deriving DecidableEq

/-- The f-string `- {name} ({unit}) — {amount}` shared by the txt and pdf
renderers (the pdf draws it without a newline). -/
def entryText (e : (String × String) × Nat) : String :=
  "- " ++ e.1.1 ++ " (" ++ e.1.2 ++ ") — " ++ natStr e.2

/-- One txt body line `f"- {name} ({unit}) — {amount}\n"`. -/
def entryLine (e : (String × String) × Nat) : String := entryText e ++ "\n"

/-- `_generate_txt_response`: the title, a blank line, then one line per
sorted entry, accumulated by string concatenation as in the source. -/
def generate_txt_response (ingredients : List ((String × String) × Nat)) : Response :=
  let text :=
    (sortedItems ingredients).foldl (fun text e => text ++ entryLine e)
      "Список покупок:\n\n"
  Response.txtFile "text/plain; charset=utf-8" "shopping_list.txt" text

/-- One `csv.writer.writerow([name, unit, amount])` call. -/
def csvRow (e : (String × String) × Nat) : List String :=
  [e.1.1, e.1.2, natStr e.2]

/-- The csv header row. -/
def csvHeader : List String := ["Ингредиент", "Единица измерения", "Количество"]

/-- `_generate_csv_response`: header row, then one row per sorted entry. -/
def generate_csv_response (ingredients : List ((String × String) × Nat)) : Response :=
  Response.csvFile "text/csv; charset=utf-8" "shopping_list.csv"
    (csvHeader :: (sortedItems ingredients).map csvRow)

/-- PDF layout constants, literal in `backend/foodgram/api/views.py` and
named `PDF_*` in `backend/api/views.py`. -/
def PDF_START_Y : Int := 800

/-- First body line position (`PDF_TITLE_Y`). -/
def PDF_TITLE_Y : Int := 770

/-- Page-break threshold (`PDF_MIN_Y`). -/
def PDF_MIN_Y : Int := 50

/-- Vertical step between body lines (`PDF_LINE_HEIGHT`). -/
def PDF_LINE_HEIGHT : Int := 20

/-- The pdf body loop: the state is the current page number and the cursor
`y_position`; each entry is drawn after an `if y_position < PDF_MIN_Y`
page-break check, then the cursor steps down by `PDF_LINE_HEIGHT`.  Each
produced triple records the page and y-coordinate of one `drawString`. -/
def pdfGo : Nat × Int → List ((String × String) × Nat) → List (Nat × Int × String)
  | _, [] => []
  | (page, y), e :: rest =>
    if y < PDF_MIN_Y then
      (page + 1, PDF_START_Y, entryText e) ::
        pdfGo (page + 1, PDF_START_Y - PDF_LINE_HEIGHT) rest
    else
      (page, y, entryText e) :: pdfGo (page, y - PDF_LINE_HEIGHT) rest

/-- The body draws of `_generate_pdf_response`: page 1, starting at
`PDF_TITLE_Y`, over the sorted entries. -/
def pdfDraws (ingredients : List ((String × String) × Nat)) : List (Nat × Int × String) :=
  pdfGo (1, PDF_TITLE_Y) (sortedItems ingredients)

/-- `_generate_pdf_response`, observed through its `drawString` calls. -/
def generate_pdf_response (ingredients : List ((String × String) × Nat)) : Response :=
  Response.pdfFile "application/pdf" "shopping_list.pdf" (pdfDraws ingredients)

/-! ### The endpoint -/

/-- The cart items in scope: `user.shopping_cart.all()` when the
`recipe_ids` parameter is absent or empty (CPython falsiness of `None` and
`''`), otherwise the parse of the comma-separated tokens followed by
`filter(recipe_id__in=recipe_ids)`; `none` models the `ValueError` branch. -/
def scopeOf (cart : List CartItem) (recipe_ids : Option String) :
    Option (List CartItem) :=
  match recipe_ids with
  | none => some cart
  | some s =>
    if s = "" then some cart
    else
      match parseIdList (pySplitComma s) with
      | none => none
      | some ids => some (cart.filter (fun item => ids.contains item.recipe_id))

/-- `download_shopping_cart`: resolve the scope (400 on a bad `recipe_ids`),
aggregate, 400 on an empty aggregation, then dispatch on
`request.query_params.get('format', 'txt').lower()`. -/
def download (cart : List CartItem) (recipe_ids format : Option String) : Response :=
  match scopeOf cart recipe_ids with
  | none => Response.badRequest "Некорректный формат recipe_ids"
  | some shopping_cart =>
    let ingredients := aggregate shopping_cart
    if ingredients = [] then
      Response.badRequest "Нет ингредиентов для скачивания"
    else
      let fmt := pyLower (format.getD "txt")
      if fmt = "txt" then generate_txt_response ingredients
      else if fmt = "pdf" then generate_pdf_response ingredients
      else if fmt = "csv" then generate_csv_response ingredients
      else Response.badRequest "Неподдерживаемый формат. Доступны: txt, pdf, csv"


/-! ### Derived relations, derived output forms and fixtures -/

/-- `pyLeEntry` as a relation. -/
def pyLeProp (e1 e2 : (String × String) × Nat) : Prop := pyLeEntry e1 e2 = true

/-- Non-strict lexicographic order on the `(name, unit)` keys alone. -/
def keyLe (e1 e2 : (String × String) × Nat) : Prop :=
  strLt e1.1.1 e2.1.1 = true
    ∨ (e1.1.1 = e2.1.1
        ∧ (strLt e1.1.2 e2.1.2 = true ∨ e1.1.2 = e2.1.2))

/-- Sum of `amount` over the ingredient lines of one recipe that carry a
given `(name, measurement_unit)` key. -/
def sumLines (ls : List IngredientLine) (k : String × String) : Nat :=
  ((ls.filter (fun ri => decide (keyOf ri = k))).map IngredientLine.amount).sum

/-- Sum of `amount` over all ingredient lines of all cart items in scope
that carry a given key. -/
def sumAmounts (items : List CartItem) (k : String × String) : Nat :=
  (items.map (fun it => sumLines it.recipe_ingredients k)).sum

/-- Whether any in-scope ingredient line carries the key. -/
def occursIn (items : List CartItem) (k : String × String) : Bool :=
  items.any (fun it => it.recipe_ingredients.any (fun ri => decide (keyOf ri = k)))

/-- The concatenation of the per-entry txt lines. -/
def txtBody : List ((String × String) × Nat) → String
  | [] => ""
  | e :: es => entryLine e ++ txtBody es

/-! ### Concrete fixtures used by the witnesses -/

/-- The spec's recipe A: salt/g/10 and sugar/g/5, recipe id 1. -/
def cartA : CartItem := ⟨1, [⟨"salt", "g", 10⟩, ⟨"sugar", "g", 5⟩]⟩

/-- The spec's recipe B: salt/g/20 and flour/g/100, recipe id 2. -/
def cartB : CartItem := ⟨2, [⟨"salt", "g", 20⟩, ⟨"flour", "g", 100⟩]⟩

/-- The step relation between two consecutive `drawString` calls: when the
cursor after the previous draw has crossed `PDF_MIN_Y`, the next draw is on
a fresh page at the top margin `PDF_START_Y`; otherwise it is one
`PDF_LINE_HEIGHT` further down on the same page. -/
def pdfRel (d1 d2 : Nat × Int × String) : Prop :=
  if d1.2.1 - PDF_LINE_HEIGHT < PDF_MIN_Y then
    d2.1 = d1.1 + 1 ∧ d2.2.1 = PDF_START_Y
  else
    d2.1 = d1.1 ∧ d2.2.1 = d1.2.1 - PDF_LINE_HEIGHT

/-! ### Reparsing the text export (cross-format consistency) -/

/-- The character form of one export line body, without the trailing
newline: `- {name} ({unit}) — {amount}`. -/
def entryChars (e : (String × String) × Nat) : List Char :=
  ['-', ' '] ++ e.1.1.data ++ [' ', '('] ++ e.1.2.data ++ [')', ' ', '—', ' ']
    ++ decimalDigits e.2

/-- The title prefix of the text export. -/
def titleChars : List Char := "Список покупок:\n\n".data

/-- Parse one entry line back into its `(name, unit, amount)` triple:
strip the `- ` bullet, read the amount digits from the right, strip the
`) — ` separator, then split the reversed remainder at its first `( `
occurrence — the last ` (` of the line — into unit and name. -/
def parseEntryChars (l : List Char) : Option (String × String × Nat) :=
  match dropPrefixChars ['-', ' '] l with
  | none => none
  | some content =>
    let r := content.reverse
    let ds := r.takeWhile Char.isDigit
    if ds = [] then none
    else
      match dropPrefixChars [' ', '—', ' ', ')'] (r.dropWhile Char.isDigit) with
      | none => none
      | some rem =>
        match splitOnce ['(', ' '] rem with
        | none => none
        | some (ru, rn) =>
          some (String.mk rn.reverse, String.mk ru.reverse, digitsVal ds.reverse)

/-- Parse every entry line; any malformed line fails the whole parse. -/
def parseEntries : List (List Char) → Option (List (String × String × Nat))
  | [] => some []
  | l :: ls =>
    match parseEntryChars l, parseEntries ls with
    | some t, some ts => some (t :: ts)
    | _, _ => none

/-- Reparse a whole text export: the title block, then newline-terminated
entry lines (so the final split piece must be empty). -/
def parseShoppingTxt (text : String) : Option (List (String × String × Nat)) :=
  match dropPrefixChars titleChars text.data with
  | none => none
  | some rest =>
    if (linesOf rest).getLast? = some ([] : List Char) then
      parseEntries (linesOf rest).dropLast
    else none

/-- Entries whose reparse is unambiguous: no newline inside the name or
the unit, and the unit does not contain the ` (` separator.  (Reducible so
that the property stays decidable on concrete carts.) -/
abbrev goodEntry (e : (String × String) × Nat) : Prop :=
  '\n' ∉ e.1.1.data ∧ '\n' ∉ e.1.2.data ∧ containsSub [' ', '('] e.1.2.data = false


/-! ### String append lemmas -/

theorem str_append_empty (s : String) : s ++ "" = s := by
  apply String.ext
  rw [String.data_append]
  show s.data ++ [] = s.data
  simp

theorem str_append_assoc (a b c : String) : a ++ b ++ c = a ++ (b ++ c) := by
  apply String.ext
  simp [String.data_append, List.append_assoc]

/-! ### Properties of the code-point comparison -/

theorem charListLt_trans {a b c : List Char} (h1 : charListLt a b = true)
    (h2 : charListLt b c = true) : charListLt a c = true := by
  induction a generalizing b c with
  | nil =>
    cases b with
    | nil => simp [charListLt] at h1
    | cons y ys =>
      cases c with
      | nil => simp [charListLt] at h2
      | cons z zs => simp [charListLt]
  | cons x xs ih =>
    cases b with
    | nil => simp [charListLt] at h1
    | cons y ys =>
      cases c with
      | nil => simp [charListLt] at h2
      | cons z zs =>
        simp only [charListLt] at h1 h2 ⊢
        split_ifs at h1 h2 ⊢ <;> first
          | rfl
          | omega
          | exact ih h1 h2

theorem charListLt_conn {a b : List Char} (h1 : charListLt a b = false)
    (h2 : charListLt b a = false) : a = b := by
  induction a generalizing b with
  | nil =>
    cases b with
    | nil => rfl
    | cons y ys => simp [charListLt] at h1
  | cons x xs ih =>
    cases b with
    | nil => simp [charListLt] at h2
    | cons y ys =>
      simp only [charListLt] at h1 h2
      by_cases hxy : x.toNat < y.toNat
      · rw [if_pos hxy] at h1; exact absurd h1 (by simp)
      · rw [if_neg hxy] at h1
        by_cases hyx : y.toNat < x.toNat
        · rw [if_pos hyx] at h2; exact absurd h2 (by simp)
        · rw [if_neg hyx] at h1
          rw [if_neg hyx, if_neg hxy] at h2
          have hc : x = y :=
            Char.ext (UInt32.ext (by simp only [Char.toNat] at hxy hyx; omega))
          rw [hc, ih h1 h2]

theorem charListLt_irrefl (a : List Char) : charListLt a a = false := by
  induction a with
  | nil => rfl
  | cons x xs ih => simp [charListLt, ih]

theorem boolFalse {b : Bool} (h : ¬b = true) : b = false := by
  cases b
  · rfl
  · exact absurd rfl h

theorem strLt_trans {a b c : String} (h1 : strLt a b = true)
    (h2 : strLt b c = true) : strLt a c = true :=
  charListLt_trans h1 h2

theorem strLt_conn {a b : String} (h1 : strLt a b = false)
    (h2 : strLt b a = false) : a = b :=
  String.ext (charListLt_conn h1 h2)

theorem strLt_irrefl (s : String) : strLt s s = false := charListLt_irrefl s.data

/-! ### Properties of the entry comparison and of `sorted` -/

theorem pyLeEntry_iff (e1 e2 : (String × String) × Nat) :
    pyLeEntry e1 e2 = true ↔
      (strLt e1.1.1 e2.1.1 = true
        ∨ (e1.1.1 = e2.1.1
            ∧ (strLt e1.1.2 e2.1.2 = true
                ∨ (e1.1.2 = e2.1.2 ∧ e1.2 ≤ e2.2)))) := by
  unfold pyLeEntry
  by_cases hn1 : strLt e1.1.1 e2.1.1 = true
  · simp [hn1]
  · have hn1' := boolFalse hn1
    rw [if_neg hn1]
    by_cases hn2 : strLt e2.1.1 e1.1.1 = true
    · rw [if_pos hn2]
      constructor
      · intro h; exact absurd h (by simp)
      · rintro (h | ⟨heq, _⟩)
        · exact absurd h hn1
        · rw [heq, strLt_irrefl] at hn2; exact absurd hn2 (by simp)
    · have heqn : e1.1.1 = e2.1.1 := strLt_conn hn1' (boolFalse hn2)
      rw [if_neg hn2]
      by_cases hu1 : strLt e1.1.2 e2.1.2 = true
      · simp [hu1, heqn]
      · have hu1' := boolFalse hu1
        rw [if_neg hu1]
        by_cases hu2 : strLt e2.1.2 e1.1.2 = true
        · rw [if_pos hu2]
          constructor
          · intro h; exact absurd h (by simp)
          · rintro (h | ⟨_, h | ⟨hequ, _⟩⟩)
            · exact absurd h hn1
            · exact absurd h hu1
            · rw [hequ, strLt_irrefl] at hu2; exact absurd hu2 (by simp)
        · have hequ : e1.1.2 = e2.1.2 := strLt_conn hu1' (boolFalse hu2)
          rw [if_neg hu2]
          simp [heqn, hequ, strLt_irrefl]

theorem pyLeEntry_total (e1 e2 : (String × String) × Nat) :
    pyLeEntry e1 e2 = true ∨ pyLeEntry e2 e1 = true := by
  rw [pyLeEntry_iff, pyLeEntry_iff]
  by_cases hn1 : strLt e1.1.1 e2.1.1 = true
  · exact Or.inl (Or.inl hn1)
  by_cases hn2 : strLt e2.1.1 e1.1.1 = true
  · exact Or.inr (Or.inl hn2)
  have heqn := strLt_conn (boolFalse hn1) (boolFalse hn2)
  by_cases hu1 : strLt e1.1.2 e2.1.2 = true
  · exact Or.inl (Or.inr ⟨heqn, Or.inl hu1⟩)
  by_cases hu2 : strLt e2.1.2 e1.1.2 = true
  · exact Or.inr (Or.inr ⟨heqn.symm, Or.inl hu2⟩)
  have hequ := strLt_conn (boolFalse hu1) (boolFalse hu2)
  rcases Nat.le_total e1.2 e2.2 with h | h
  · exact Or.inl (Or.inr ⟨heqn, Or.inr ⟨hequ, h⟩⟩)
  · exact Or.inr (Or.inr ⟨heqn.symm, Or.inr ⟨hequ.symm, h⟩⟩)

theorem pyLeEntry_trans {e1 e2 e3 : (String × String) × Nat}
    (h1 : pyLeEntry e1 e2 = true) (h2 : pyLeEntry e2 e3 = true) :
    pyLeEntry e1 e3 = true := by
  rw [pyLeEntry_iff] at h1 h2 ⊢
  rcases h1 with h1 | ⟨hn1, h1⟩
  · rcases h2 with h2 | ⟨hn2, h2⟩
    · exact Or.inl (strLt_trans h1 h2)
    · exact Or.inl (hn2 ▸ h1)
  · rcases h2 with h2 | ⟨hn2, h2⟩
    · exact Or.inl (hn1 ▸ h2)
    · refine Or.inr ⟨hn1.trans hn2, ?_⟩
      rcases h1 with h1 | ⟨hu1, h1⟩
      · rcases h2 with h2 | ⟨hu2, h2⟩
        · exact Or.inl (strLt_trans h1 h2)
        · exact Or.inl (hu2 ▸ h1)
      · rcases h2 with h2 | ⟨hu2, h2⟩
        · exact Or.inl (hu1 ▸ h2)
        · exact Or.inr ⟨hu1.trans hu2, le_trans h1 h2⟩

theorem pyLeEntry_keyLe {e1 e2 : (String × String) × Nat}
    (h : pyLeEntry e1 e2 = true) : keyLe e1 e2 := by
  rw [pyLeEntry_iff] at h
  rcases h with h | ⟨hn, h | ⟨hu, _⟩⟩
  · exact Or.inl h
  · exact Or.inr ⟨hn, Or.inl h⟩
  · exact Or.inr ⟨hn, Or.inr hu⟩

theorem insortEntry_perm (e : (String × String) × Nat)
    (l : List ((String × String) × Nat)) :
    (insortEntry e l).Perm (e :: l) := by
  induction l with
  | nil => simp [insortEntry]
  | cons x xs ih =>
    unfold insortEntry
    split_ifs
    · exact List.Perm.refl _
    · exact (ih.cons x).trans (List.Perm.swap e x xs)

theorem sortedItems_perm (l : List ((String × String) × Nat)) :
    (sortedItems l).Perm l := by
  induction l with
  | nil => simp [sortedItems]
  | cons e es ih => exact (insortEntry_perm e (sortedItems es)).trans (ih.cons e)

theorem insortEntry_pairwise {l : List ((String × String) × Nat)}
    (h : l.Pairwise pyLeProp) (e : (String × String) × Nat) :
    (insortEntry e l).Pairwise pyLeProp := by
  induction l with
  | nil => simp [insortEntry, List.Pairwise]
  | cons x xs ih =>
    rcases h with _ | ⟨hx, hxs⟩
    unfold insortEntry
    split_ifs with he
    · refine List.Pairwise.cons ?_ (List.Pairwise.cons hx hxs)
      intro b hb
      rcases List.mem_cons.mp hb with hbx | hbxs
      · rw [hbx]; exact he
      · exact pyLeEntry_trans he (hx b hbxs)
    · refine List.Pairwise.cons ?_ (ih hxs)
      intro b hb
      have hb' := (insortEntry_perm e xs).mem_iff.mp hb
      rcases List.mem_cons.mp hb' with hbe | hbxs
      · rw [hbe]
        rcases pyLeEntry_total e x with ht | ht
        · exact absurd ht (by simp_all)
        · exact ht
      · exact hx b hbxs

theorem sortedItems_pairwise (l : List ((String × String) × Nat)) :
    (sortedItems l).Pairwise pyLeProp := by
  induction l with
  | nil => simp [sortedItems, List.Pairwise]
  | cons e es ih => exact insortEntry_pairwise ih e

theorem sortedItems_pairwise_keyLe (l : List ((String × String) × Nat)) :
    (sortedItems l).Pairwise keyLe :=
  (sortedItems_pairwise l).imp (fun h => pyLeEntry_keyLe h)

/-! ### The aggregation invariant -/

theorem sumLines_eq_zero {ls : List IngredientLine} {k : String × String}
    (h : ls.any (fun ri => decide (keyOf ri = k)) = false) : sumLines ls k = 0 := by
  have hnil : ls.filter (fun ri => decide (keyOf ri = k)) = [] := by
    rw [List.filter_eq_nil_iff]
    intro ri hri
    have := List.any_eq_false.mp h ri hri
    simpa using this
  simp [sumLines, hnil]

theorem sumAmounts_eq_zero {items : List CartItem} {k : String × String}
    (h : occursIn items k = false) : sumAmounts items k = 0 := by
  induction items with
  | nil => simp [sumAmounts]
  | cons it items ih =>
    simp only [occursIn, List.any_cons, Bool.or_eq_false_iff] at h
    have h1 := sumLines_eq_zero h.1
    have h2 := ih (by simpa [occursIn] using h.2)
    simp [sumAmounts, h1]
    simpa [sumAmounts] using h2

theorem dictFind_dictAdd (m : List ((String × String) × Nat))
    (k k' : String × String) (v : Nat) :
    dictFind (dictAdd m k v) k' =
      if k' = k then some ((dictFind m k').getD 0 + v) else dictFind m k' := by
  induction m with
  | nil =>
    by_cases h : k' = k
    · simp [dictAdd, dictFind, h]
    · simp [dictAdd, dictFind, h, Ne.symm h]
  | cons p rest ih =>
    obtain ⟨k'', v''⟩ := p
    by_cases h1 : k'' = k
    · subst h1
      by_cases h2 : k'' = k'
      · subst h2
        simp [dictAdd, dictFind]
      · simp [dictAdd, dictFind, h2, Ne.symm h2]
    · by_cases h2 : k'' = k'
      · subst h2
        simp [dictAdd, dictFind, h1]
      · simp [dictAdd, dictFind, h1, h2, ih]

theorem dictFind_lines_foldl (ls : List IngredientLine)
    (m : List ((String × String) × Nat)) (k : String × String) :
    dictFind (ls.foldl (fun m ri => dictAdd m (keyOf ri) ri.amount) m) k =
      if ls.any (fun ri => decide (keyOf ri = k)) then
        some ((dictFind m k).getD 0 + sumLines ls k)
      else dictFind m k := by
  induction ls generalizing m with
  | nil => simp [sumLines]
  | cons ri ls ih =>
    simp only [List.foldl_cons, ih, dictFind_dictAdd, List.any_cons]
    by_cases hk : keyOf ri = k
    · by_cases ha : ls.any (fun ri => decide (keyOf ri = k)) = true
      · simp [hk, ha, sumLines, List.filter_cons]
        omega
      · simp only [Bool.not_eq_true] at ha
        have h0 := sumLines_eq_zero ha
        simp [hk, ha, sumLines, List.filter_cons, h0]
        have := sumLines_eq_zero ha
        simp [sumLines] at this
        simp [this]
    · by_cases ha : ls.any (fun ri => decide (keyOf ri = k)) = true
      · simp [hk, Ne.symm hk, ha, sumLines, List.filter_cons]
      · simp only [Bool.not_eq_true] at ha
        simp [hk, Ne.symm hk, ha, sumLines, List.filter_cons]

theorem dictFind_aggregate_foldl (items : List CartItem)
    (m : List ((String × String) × Nat)) (k : String × String) :
    dictFind
        (items.foldl
          (fun m item =>
            item.recipe_ingredients.foldl
              (fun m ri => dictAdd m (keyOf ri) ri.amount) m)
          m)
        k =
      if occursIn items k then some ((dictFind m k).getD 0 + sumAmounts items k)
      else dictFind m k := by
  induction items generalizing m with
  | nil => simp [occursIn, sumAmounts]
  | cons it items ih =>
    simp only [List.foldl_cons, ih, dictFind_lines_foldl, occursIn, List.any_cons,
      sumAmounts, List.map_cons, List.sum_cons]
    by_cases hit : it.recipe_ingredients.any (fun ri => decide (keyOf ri = k)) = true
    · by_cases ha :
        items.any
          (fun it =>
            it.recipe_ingredients.any (fun ri => decide (keyOf ri = k))) = true
      · simp [hit, ha, occursIn]
        omega
      · simp only [Bool.not_eq_true] at ha
        have h0 : sumAmounts items k = 0 := sumAmounts_eq_zero (by simpa [occursIn] using ha)
        simp only [sumAmounts] at h0
        simp [hit, ha, occursIn, h0]
    · simp only [Bool.not_eq_true] at hit
      by_cases ha :
        items.any
          (fun it =>
            it.recipe_ingredients.any (fun ri => decide (keyOf ri = k))) = true
      · have hz : sumLines it.recipe_ingredients k = 0 := sumLines_eq_zero hit
        simp [hit, ha, occursIn, hz]
      · simp only [Bool.not_eq_true] at ha
        simp [hit, ha, occursIn]

/-! ### Structured renderer output -/

theorem foldl_entryLine (es : List ((String × String) × Nat)) (init : String) :
    es.foldl (fun t e => t ++ entryLine e) init = init ++ txtBody es := by
  induction es generalizing init with
  | nil => simp [txtBody, str_append_empty]
  | cons e es ih => simp [txtBody, ih, str_append_assoc]

theorem generate_txt_eq (ingredients : List ((String × String) × Nat)) :
    generate_txt_response ingredients =
      Response.txtFile "text/plain; charset=utf-8" "shopping_list.txt"
        ("Список покупок:\n\n" ++ txtBody (sortedItems ingredients)) := by
  unfold generate_txt_response
  rw [foldl_entryLine]

/-! ### `parseIdList` failure characterisation -/

/-- C1: for every cart snapshot and every successfully parsed optional
recipe-id filter, the aggregation maps each `(name, unit)` key to exactly
the sum of the `amount`s of all in-scope ingredient lines (merging lines
that share name and unit), the in-scope items are all cart items when no
(or a blank) filter is given and exactly the id-filtered cart items
otherwise, so a filter id matching no cart recipe is silently excluded
rather than rejected. -/
theorem aggregate_maps_key_to_scope_sum (cart : List CartItem)
    (recipe_ids : Option String) (items : List CartItem) (k : String × String)
    (h : scopeOf cart recipe_ids = some items) :
    (dictFind (aggregate items) k =
        if occursIn items k then some (sumAmounts items k) else none)
    ∧ (∀ s ids, recipe_ids = some s → s ≠ "" →
          parseIdList (pySplitComma s) = some ids →
          items = cart.filter (fun item => ids.contains item.recipe_id))
    ∧ ((recipe_ids = none ∨ recipe_ids = some "") → items = cart) := by
  refine ⟨?_, ?_, ?_⟩
  · have hmain := dictFind_aggregate_foldl items [] k
    by_cases ho : occursIn items k = true
    · simpa [aggregate, dictFind, ho] using hmain
    · simp only [Bool.not_eq_true] at ho
      simpa [aggregate, dictFind, ho] using hmain
  · intro s ids hs hne hp
    rw [hs] at h
    simp only [scopeOf, if_neg hne, hp] at h
    exact (Option.some.inj h).symm
  · rintro (rfl | rfl)
    · exact (Option.some.inj h).symm
    · have h' : some cart = some items := by simpa [scopeOf] using h
      exact (Option.some.inj h').symm

theorem aggregate_maps_key_to_scope_sum_witness :
    scopeOf [cartA, cartB] (some "1,999") = some [cartA]
    ∧ (dictFind (aggregate [cartA]) ("salt", "g") =
        if occursIn [cartA] ("salt", "g") then some (sumAmounts [cartA] ("salt", "g"))
        else none) :=
  ⟨by decide,
    (aggregate_maps_key_to_scope_sum [cartA, cartB] (some "1,999") [cartA]
      ("salt", "g") (by decide)).1⟩

/-- C3: whenever the in-scope aggregation is empty (empty cart, or a
filter matching nothing), the download returns the empty-cart 400 error,
for every requested format value, and no file response is produced. -/
theorem download_empty_aggregation_is_400 (cart : List CartItem)
    (recipe_ids format : Option String) (items : List CartItem)
    (h1 : scopeOf cart recipe_ids = some items) (h2 : aggregate items = []) :
    download cart recipe_ids format =
      Response.badRequest "Нет ингредиентов для скачивания" := by
  simp [download, h1, h2]

theorem download_empty_aggregation_is_400_witness :
    (scopeOf [cartA] (some "999") = some [] ∧ aggregate ([] : List CartItem) = [])
    ∧ download [cartA] (some "999") (some "xml") =
        Response.badRequest "Нет ингредиентов для скачивания" :=
  ⟨⟨by decide, by decide⟩,
    download_empty_aggregation_is_400 [cartA] (some "999") (some "xml") []
      (by decide) (by decide)⟩

/-- C7: when the aggregation is non-empty and the case-folded format value
is none of `txt`, `pdf`, `csv`, the download returns the 400 error whose
message enumerates the three valid values, and no file is rendered. -/
theorem download_unsupported_format_is_400 (cart : List CartItem)
    (recipe_ids : Option String) (format : String) (items : List CartItem)
    (h1 : scopeOf cart recipe_ids = some items)
    (h2 : aggregate items ≠ [])
    (h3 : pyLower format ∉ (["txt", "pdf", "csv"] : List String)) :
    download cart recipe_ids (some format) =
      Response.badRequest "Неподдерживаемый формат. Доступны: txt, pdf, csv" := by
  simp only [List.mem_cons, List.mem_singleton, not_or] at h3
  obtain ⟨ht, hp, hc⟩ := h3
  simp [download, h1, h2, Option.getD, ht, hp, hc]

theorem download_unsupported_format_is_400_witness :
    (scopeOf [cartA] none = some [cartA] ∧ aggregate [cartA] ≠ []
      ∧ pyLower "xml" ∉ (["txt", "pdf", "csv"] : List String))
    ∧ download [cartA] none (some "xml") =
        Response.badRequest "Неподдерживаемый формат. Доступны: txt, pdf, csv" :=
  ⟨⟨by decide, by decide, by decide⟩,
    download_unsupported_format_is_400 [cartA] none "xml" [cartA]
      (by decide) (by decide) (by decide)⟩

/-- C10: a `recipe_ids` parameter carrying the empty string is treated
exactly like an absent parameter (CPython falsiness): the whole cart is
aggregated and no validation error is raised. -/
theorem download_blank_recipe_ids_like_absent (cart : List CartItem)
    (format : Option String) :
    download cart (some "") format = download cart none format := rfl

/-- C4: the three renderers all emit the aggregated entries in the order of
`sortedItems`, which is a permutation of the aggregation sorted
lexicographically by the `(name, unit)` key; the renderers are functions of
the aggregation alone, so repeated exports of the same cart are
byte-identical. -/
theorem renderers_emit_sorted_entries (ingredients : List ((String × String) × Nat)) :
    generate_txt_response ingredients =
        Response.txtFile "text/plain; charset=utf-8" "shopping_list.txt"
          ("Список покупок:\n\n" ++ txtBody (sortedItems ingredients))
    ∧ generate_csv_response ingredients =
        Response.csvFile "text/csv; charset=utf-8" "shopping_list.csv"
          (csvHeader :: (sortedItems ingredients).map csvRow)
    ∧ generate_pdf_response ingredients =
        Response.pdfFile "application/pdf" "shopping_list.pdf"
          (pdfGo (1, PDF_TITLE_Y) (sortedItems ingredients))
    ∧ (sortedItems ingredients).Perm ingredients
    ∧ (sortedItems ingredients).Pairwise keyLe :=
  ⟨generate_txt_eq ingredients, rfl, rfl, sortedItems_perm ingredients,
    sortedItems_pairwise_keyLe ingredients⟩

/-- C5: for a non-empty aggregation, requesting the txt format yields the
text file response: content type `text/plain; charset=utf-8`, filename
`shopping_list.txt`, and body equal to the title line, a blank line, then
one newline-terminated `- name (unit) — amount` line per sorted entry. -/
theorem download_txt_response (cart : List CartItem) (recipe_ids : Option String)
    (items : List CartItem) (h1 : scopeOf cart recipe_ids = some items)
    (h2 : aggregate items ≠ []) :
    download cart recipe_ids (some "txt") =
      Response.txtFile "text/plain; charset=utf-8" "shopping_list.txt"
        ("Список покупок:\n\n" ++ txtBody (sortedItems (aggregate items))) := by
  have hlow : pyLower "txt" = "txt" := by decide
  simp [download, h1, h2, Option.getD, hlow]
  exact generate_txt_eq (aggregate items)

theorem download_txt_response_witness :
    (scopeOf [cartA, cartB] none = some [cartA, cartB]
      ∧ aggregate [cartA, cartB] ≠ [])
    ∧ download [cartA, cartB] none (some "txt") =
        Response.txtFile "text/plain; charset=utf-8" "shopping_list.txt"
          ("Список покупок:\n\n" ++ txtBody (sortedItems (aggregate [cartA, cartB]))) :=
  ⟨⟨by decide, by decide⟩,
    download_txt_response [cartA, cartB] none [cartA, cartB] (by decide) (by decide)⟩

/-- C6: for a non-empty aggregation, requesting the csv format yields the
csv file response: content type `text/csv; charset=utf-8`, filename
`shopping_list.csv`, and exactly the header row
`["Ингредиент", "Единица измерения", "Количество"]` followed by one
`[name, unit, amount]` row per sorted entry. -/
theorem download_csv_response (cart : List CartItem) (recipe_ids : Option String)
    (items : List CartItem) (h1 : scopeOf cart recipe_ids = some items)
    (h2 : aggregate items ≠ []) :
    download cart recipe_ids (some "csv") =
      Response.csvFile "text/csv; charset=utf-8" "shopping_list.csv"
        (csvHeader :: (sortedItems (aggregate items)).map csvRow) := by
  have hlow : pyLower "csv" = "csv" := by decide
  have h3 : pyLower "csv" ≠ "txt" := by decide
  have h4 : pyLower "csv" ≠ "pdf" := by decide
  simp [download, h1, h2, Option.getD, hlow, h3, h4, generate_csv_response]

theorem download_csv_response_witness :
    (scopeOf [cartA, cartB] none = some [cartA, cartB]
      ∧ aggregate [cartA, cartB] ≠ [])
    ∧ download [cartA, cartB] none (some "csv") =
        Response.csvFile "text/csv; charset=utf-8" "shopping_list.csv"
          (csvHeader :: (sortedItems (aggregate [cartA, cartB])).map csvRow) :=
  ⟨⟨by decide, by decide⟩,
    download_csv_response [cartA, cartB] none [cartA, cartB] (by decide) (by decide)⟩

/-! ### PDF pagination invariant -/

theorem pdfGo_cons (p : Nat) (y : Int) (e : (String × String) × Nat)
    (es : List ((String × String) × Nat)) :
    pdfGo (p, y) (e :: es) =
      ((if y < PDF_MIN_Y then p + 1 else p),
        (if y < PDF_MIN_Y then PDF_START_Y else y), entryText e)
        :: pdfGo
            ((if y < PDF_MIN_Y then p + 1 else p),
              (if y < PDF_MIN_Y then PDF_START_Y else y) - PDF_LINE_HEIGHT)
            es := by
  by_cases h : y < PDF_MIN_Y <;> simp [pdfGo, h]

theorem pdfGo_min_y (st : Nat × Int) (es : List ((String × String) × Nat)) :
    ∀ d ∈ pdfGo st es, PDF_MIN_Y ≤ d.2.1 := by
  induction es generalizing st with
  | nil => simp [pdfGo]
  | cons e es ih =>
    obtain ⟨p, y⟩ := st
    rw [pdfGo_cons]
    intro d hd
    rcases List.mem_cons.mp hd with rfl | hd
    · simp only [PDF_MIN_Y, PDF_START_Y]
      split_ifs <;> omega
    · exact ih _ d hd

theorem pdfGo_chain (st : Nat × Int) (es : List ((String × String) × Nat)) :
    List.Chain' pdfRel (pdfGo st es) := by
  induction es generalizing st with
  | nil => simp [pdfGo]
  | cons e es ih =>
    obtain ⟨p, y⟩ := st
    rw [pdfGo_cons, List.chain'_cons']
    refine ⟨?_, ih _⟩
    intro b hb
    cases es with
    | nil => simp [pdfGo] at hb
    | cons e' es' =>
      rw [pdfGo_cons] at hb
      simp only [List.head?_cons, Option.mem_def, Option.some.injEq] at hb
      subst hb
      unfold pdfRel
      by_cases h2 :
          (if y < PDF_MIN_Y then PDF_START_Y else y) - PDF_LINE_HEIGHT < PDF_MIN_Y <;>
        simp [h2]

/-- C9: the pdf renderer draws the entries top-down; every `drawString`
happens at a y-coordinate at or above `PDF_MIN_Y`, and each consecutive
pair of draws satisfies `pdfRel`: a new page at the top margin exactly when
the stepped-down cursor has crossed `PDF_MIN_Y`, a fixed `PDF_LINE_HEIGHT`
step on the same page otherwise — so page breaks depend only on vertical
space, never on an entry count. -/
theorem pdf_pagination_invariant (ingredients : List ((String × String) × Nat)) :
    generate_pdf_response ingredients =
        Response.pdfFile "application/pdf" "shopping_list.pdf" (pdfDraws ingredients)
    ∧ (∀ d ∈ pdfDraws ingredients, PDF_MIN_Y ≤ d.2.1)
    ∧ List.Chain' pdfRel (pdfDraws ingredients) :=
  ⟨rfl, pdfGo_min_y _ _, pdfGo_chain _ _⟩

/-! ### Reparse correctness -/

theorem dropPrefixChars_append (p l : List Char) :
    dropPrefixChars p (p ++ l) = some l := by
  induction p with
  | nil => rfl
  | cons c p ih => simp [dropPrefixChars, ih]

theorem isPrefixOf_append_self (p l : List Char) : p.isPrefixOf (p ++ l) = true := by
  induction p with
  | nil => simp [List.isPrefixOf]
  | cons c p ih => simp [List.isPrefixOf, ih]

theorem containsSub_of_parts (pat s t l : List Char) (h : l = s ++ (pat ++ t)) :
    containsSub pat l = true := by
  subst h
  induction s with
  | nil =>
    cases pat with
    | nil => cases t <;> simp [containsSub]
    | cons c p =>
      simp only [List.nil_append, List.cons_append, containsSub, List.append_eq]
      rw [← List.cons_append, isPrefixOf_append_self]
      simp
  | cons c s ih => simp [containsSub, ih]

theorem digitChar_isDigit (d : Nat) : (digitChar d).isDigit = true := by
  unfold digitChar
  split <;> decide

theorem digitChar_toNat (d : Nat) (h : d < 10) : (digitChar d).toNat = 48 + d := by
  interval_cases d <;> decide

theorem digitsVal_append_single (xs : List Char) (c : Char) :
    digitsVal (xs ++ [c]) = 10 * digitsVal xs + (c.toNat - 48) := by
  simp [digitsVal, List.foldl_append]

theorem decimalDigitsAux_spec (fuel : Nat) :
    ∀ n : Nat, n < fuel →
      decimalDigitsAux fuel n ≠ []
      ∧ (∀ c ∈ decimalDigitsAux fuel n, c.isDigit = true)
      ∧ digitsVal (decimalDigitsAux fuel n) = n := by
  induction fuel with
  | zero => intro n hn; omega
  | succ f ih =>
    intro n hn
    by_cases h10 : n < 10
    · simp only [decimalDigitsAux, if_pos h10]
      refine ⟨by simp, ?_, ?_⟩
      · intro c hc
        simp only [List.mem_singleton] at hc
        subst hc
        exact digitChar_isDigit n
      · simp [digitsVal, digitChar_toNat n h10]
    · simp only [decimalDigitsAux, if_neg h10]
      have hdiv : n / 10 < f := by
        have h1 : n / 10 < n := Nat.div_lt_self (by omega) (by omega)
        omega
      obtain ⟨hne, hdig, hval⟩ := ih (n / 10) hdiv
      refine ⟨by simp, ?_, ?_⟩
      · intro c hc
        rcases List.mem_append.mp hc with hc | hc
        · exact hdig c hc
        · simp only [List.mem_singleton] at hc
          subst hc
          exact digitChar_isDigit _
      · rw [digitsVal_append_single, hval, digitChar_toNat (n % 10) (Nat.mod_lt _ (by omega))]
        omega

theorem decimalDigits_ne_nil (n : Nat) : decimalDigits n ≠ [] :=
  (decimalDigitsAux_spec (n + 1) n (by omega)).1

theorem decimalDigits_all_digit (n : Nat) : ∀ c ∈ decimalDigits n, c.isDigit = true :=
  (decimalDigitsAux_spec (n + 1) n (by omega)).2.1

theorem digitsVal_decimalDigits (n : Nat) : digitsVal (decimalDigits n) = n :=
  (decimalDigitsAux_spec (n + 1) n (by omega)).2.2

theorem takeWhile_all_append {p : Char → Bool} {xs : List Char}
    (h : ∀ x ∈ xs, p x = true) {y : Char} (hy : p y = false) (ys : List Char) :
    (xs ++ y :: ys).takeWhile p = xs ∧ (xs ++ y :: ys).dropWhile p = y :: ys := by
  induction xs with
  | nil => simp [List.takeWhile, List.dropWhile, hy]
  | cons x xs ih =>
    have hx : p x = true := h x (List.mem_cons_self x xs)
    obtain ⟨h1, h2⟩ := ih (fun z hz => h z (List.mem_cons_of_mem x hz))
    simp [List.takeWhile_cons, List.dropWhile_cons, hx, h1, h2]

theorem splitOnce_append {pat : List Char} (a b : List Char)
    (hpat : pat ≠ [])
    (h : ∀ a2, a2 <:+ a → a2 ≠ [] → pat.isPrefixOf (a2 ++ pat ++ b) = false) :
    splitOnce pat (a ++ pat ++ b) = some (a, b) := by
  induction a with
  | nil =>
    obtain ⟨c, p, rfl⟩ : ∃ c p, pat = c :: p := by
      cases pat with
      | nil => exact absurd rfl hpat
      | cons c p => exact ⟨c, p, rfl⟩
    simp only [List.nil_append, List.cons_append, splitOnce, List.append_eq]
    rw [← List.cons_append, isPrefixOf_append_self]
    simp [List.drop_left]
  | cons c a' ih =>
    have hc : pat.isPrefixOf ((c :: a') ++ pat ++ b) = false :=
      h (c :: a') (List.suffix_refl _) (by simp)
    have ih' := ih (fun a2 hs hne => h a2 (hs.trans (List.suffix_cons c a')) hne)
    simp only [List.cons_append, List.append_assoc] at hc
    simp only [List.append_assoc] at ih'
    simp only [List.cons_append, splitOnce, List.append_eq, List.append_assoc]
    rw [hc]
    simp only [Bool.false_eq_true, if_false]
    rw [ih']

theorem no_occurrence_in_rev_unit {u : List Char} (n : List Char)
    (hu : containsSub [' ', '('] u = false) :
    ∀ a2, a2 <:+ u.reverse → a2 ≠ [] →
      (['(', ' '] : List Char).isPrefixOf (a2 ++ ['(', ' '] ++ n) = false := by
  intro a2 hs hne
  cases a2 with
  | nil => exact absurd rfl hne
  | cons c t =>
    cases t with
    | nil =>
      have hne2 : ((' ' : Char) == '(') = false := by decide
      simp [List.isPrefixOf, hne2]
    | cons c2 t2 =>
      refine boolFalse (fun hpre => ?_)
      have hpre' : (['(', ' '] : List Char).isPrefixOf
          (c :: c2 :: (t2 ++ ['(', ' '] ++ n)) = true := by
        simpa [List.append_assoc] using hpre
      simp only [List.isPrefixOf, Bool.and_eq_true, beq_iff_eq] at hpre'
      obtain ⟨hc, hc2, -⟩ := hpre'
      subst hc
      subst hc2
      obtain ⟨pre, hpre2⟩ := hs
      have hcs : containsSub [' ', '('] u = true :=
        containsSub_of_parts [' ', '('] t2.reverse pre.reverse u (by
          apply List.reverse_injective
          rw [← hpre2]
          simp)
      exact absurd hcs (by simp [hu])

theorem entryText_data (e : (String × String) × Nat) :
    (entryText e).data = entryChars e := by
  have h1 : ("- " : String).data = ['-', ' '] := rfl
  have h2 : (" (" : String).data = [' ', '('] := rfl
  have h3 : (") — " : String).data = [')', ' ', '—', ' '] := rfl
  simp [entryText, entryChars, String.data_append, natStr, h1, h2, h3]

theorem entryLine_data (e : (String × String) × Nat) :
    (entryLine e).data = entryChars e ++ ['\n'] := by
  have h1 : ("\n" : String).data = ['\n'] := rfl
  show (entryText e ++ "\n").data = _
  rw [String.data_append, entryText_data, h1]

theorem txtBody_cons_data (e : (String × String) × Nat)
    (es : List ((String × String) × Nat)) :
    (txtBody (e :: es)).data = entryChars e ++ '\n' :: (txtBody es).data := by
  show (entryLine e ++ txtBody es).data = _
  rw [String.data_append, entryLine_data]
  simp

theorem linesOf_append (l rest : List Char) (h : '\n' ∉ l) :
    linesOf (l ++ '\n' :: rest) = l :: linesOf rest := by
  induction l with
  | nil => simp [linesOf]
  | cons c l ih =>
    have hc : ¬(c = '\n') := fun hc => h (by simp [hc])
    have h' : '\n' ∉ l := fun hh => h (List.mem_cons_of_mem _ hh)
    simp only [List.cons_append, linesOf, if_neg hc, List.append_eq, ih h']

theorem entryChars_no_newline {e : (String × String) × Nat}
    (h1 : '\n' ∉ e.1.1.data) (h2 : '\n' ∉ e.1.2.data) : '\n' ∉ entryChars e := by
  intro hmem
  simp [entryChars, h1, h2] at hmem
  exact absurd (decimalDigits_all_digit e.2 '\n' hmem) (by decide)

theorem linesOf_txtBody (es : List ((String × String) × Nat))
    (h : ∀ e ∈ es, goodEntry e) :
    linesOf (txtBody es).data = es.map entryChars ++ [[]] := by
  induction es with
  | nil => rfl
  | cons e es ih =>
    obtain ⟨hn, hu, -⟩ := h e (List.mem_cons_self e es)
    rw [txtBody_cons_data, linesOf_append _ _ (entryChars_no_newline hn hu),
      ih (fun x hx => h x (List.mem_cons_of_mem e hx))]
    simp

theorem parseEntryChars_entryChars (e : (String × String) × Nat) (hg : goodEntry e) :
    parseEntryChars (entryChars e) = some (e.1.1, e.1.2, e.2) := by
  obtain ⟨⟨n, u⟩, a⟩ := e
  obtain ⟨hn, hu, hocc⟩ := hg
  have hshape : entryChars ((n, u), a)
      = ['-', ' ']
          ++ (n.data ++ [' ', '('] ++ u.data ++ [')', ' ', '—', ' '] ++ decimalDigits a) := by
    simp [entryChars]
  have hrev : (n.data ++ [' ', '('] ++ u.data ++ [')', ' ', '—', ' '] ++ decimalDigits a).reverse
      = (decimalDigits a).reverse
          ++ ' ' :: '—' :: ' ' :: ')' :: (u.data.reverse ++ '(' :: ' ' :: n.data.reverse) := by
    simp
  have hdig : ∀ c ∈ (decimalDigits a).reverse, c.isDigit = true := fun c hc =>
    decimalDigits_all_digit a c (List.mem_reverse.mp hc)
  obtain ⟨htake, hdrop⟩ :=
    takeWhile_all_append hdig (by decide : Char.isDigit ' ' = false)
      ('—' :: ' ' :: ')' :: (u.data.reverse ++ '(' :: ' ' :: n.data.reverse))
  have hne : (decimalDigits a).reverse ≠ [] := by
    simpa using decimalDigits_ne_nil a
  have hdp : dropPrefixChars [' ', '—', ' ', ')']
      (' ' :: '—' :: ' ' :: ')' :: (u.data.reverse ++ '(' :: ' ' :: n.data.reverse))
      = some (u.data.reverse ++ '(' :: ' ' :: n.data.reverse) := by
    simp [dropPrefixChars]
  have hsplit : splitOnce ['(', ' '] (u.data.reverse ++ '(' :: ' ' :: n.data.reverse)
      = some (u.data.reverse, n.data.reverse) := by
    have := splitOnce_append u.data.reverse n.data.reverse (by simp)
      (no_occurrence_in_rev_unit n.data.reverse hocc)
    simpa [List.append_assoc] using this
  simp only [parseEntryChars, hshape, dropPrefixChars_append, hrev, htake, hdrop]
  rw [if_neg hne]
  simp only [hdp, hsplit, List.reverse_reverse, digitsVal_decimalDigits]

theorem parseEntries_map (es : List ((String × String) × Nat))
    (h : ∀ e ∈ es, goodEntry e) :
    parseEntries (es.map entryChars) = some (es.map (fun e => (e.1.1, e.1.2, e.2))) := by
  induction es with
  | nil => rfl
  | cons e es ih =>
    simp only [List.map_cons, parseEntries,
      parseEntryChars_entryChars e (h e (List.mem_cons_self e es)),
      ih (fun x hx => h x (List.mem_cons_of_mem e hx))]

theorem parseShoppingTxt_roundtrip (es : List ((String × String) × Nat))
    (h : ∀ e ∈ es, goodEntry e) :
    parseShoppingTxt ("Список покупок:\n\n" ++ txtBody es)
      = some (es.map (fun e => (e.1.1, e.1.2, e.2))) := by
  have htitle : ("Список покупок:\n\n" ++ txtBody es).data
      = titleChars ++ (txtBody es).data := String.data_append _ _
  simp only [parseShoppingTxt, htitle, dropPrefixChars_append, linesOf_txtBody es h]
  rw [List.getLast?_concat, if_pos rfl, List.dropLast_concat]
  exact parseEntries_map es h

/-- C8: the text export and the csv export of the same aggregation encode
the same `(name, unit, amount)` triples in the same order: reparsing the
txt body recovers exactly the triple sequence whose rendering is the csv
data-row list.  The hypothesis restricts to entries whose line rendering
is unambiguous: no newline inside name or unit, and no ` (` inside the
unit (amounts are digits, so they never collide with the separators). -/
theorem txt_reparse_matches_csv (ingredients : List ((String × String) × Nat))
    (h : ∀ e ∈ ingredients, goodEntry e) :
    parseShoppingTxt ("Список покупок:\n\n" ++ txtBody (sortedItems ingredients))
        = some ((sortedItems ingredients).map (fun e => (e.1.1, e.1.2, e.2)))
    ∧ generate_txt_response ingredients =
        Response.txtFile "text/plain; charset=utf-8" "shopping_list.txt"
          ("Список покупок:\n\n" ++ txtBody (sortedItems ingredients))
    ∧ generate_csv_response ingredients =
        Response.csvFile "text/csv; charset=utf-8" "shopping_list.csv"
          (csvHeader ::
            ((sortedItems ingredients).map (fun e => (e.1.1, e.1.2, e.2))).map
              (fun t => [t.1, t.2.1, natStr t.2.2])) := by
  have hs : ∀ e ∈ sortedItems ingredients, goodEntry e := fun e he =>
    h e ((sortedItems_perm ingredients).mem_iff.mp he)
  refine ⟨parseShoppingTxt_roundtrip _ hs, generate_txt_eq ingredients, ?_⟩
  simp [generate_csv_response, csvRow, List.map_map]

theorem txt_reparse_matches_csv_witness :
    (∀ e ∈ aggregate [cartA, cartB], goodEntry e)
    ∧ parseShoppingTxt
        ("Список покупок:\n\n" ++ txtBody (sortedItems (aggregate [cartA, cartB])))
        = some ((sortedItems (aggregate [cartA, cartB])).map (fun e => (e.1.1, e.1.2, e.2))) :=
  ⟨by decide, (txt_reparse_matches_csv (aggregate [cartA, cartB]) (by decide)).1⟩

/-- C8 counterexample: the claim fails for arbitrary carts because the txt
entry-line format is ambiguous.  The two one-recipe carts with ingredient
`pepper / g (ground) / 5` and `pepper (g / ground) / 5` produce the
identical text export (both lines read `- pepper (g (ground)) — 5`) but
different csv exports, so no reparse of the text export's entry lines can
recover the csv data rows of both carts. -/
theorem txt_export_ambiguous :
    download [⟨1, [⟨"pepper", "g (ground)", 5⟩]⟩] none (some "txt")
        = download [⟨1, [⟨"pepper (g", "ground)", 5⟩]⟩] none (some "txt")
    ∧ download [⟨1, [⟨"pepper", "g (ground)", 5⟩]⟩] none (some "csv")
        ≠ download [⟨1, [⟨"pepper (g", "ground)", 5⟩]⟩] none (some "csv") :=
  ⟨by decide, by decide⟩
